import Mathlib

/-
Verification development for the cost-trend dashboard (src/app.py).

The file shallowly embeds the data-wrangling core of the script:
  * `fetch_fred`            — FRED observation batch → sorted numeric series
                              (src/app.py lines 65-82, the parsing part after the
                              HTTP call; the network plumbing is elided),
  * `processLine` /
    `fetch_webkit_index_from_pdf`
                            — the WebKIT PDF fiscal-table extractor
                              (src/app.py lines 102-163, starting from the list of
                              text lines pdfplumber returns),
  * `estat_build_class_maps` /
    `estat_series_from_statsdata`
                            — the e-Stat labeled-dimension extractor
                              (src/app.py lines 212-291),
  * `build_monthly_master`  — the month aligner/merger (src/app.py lines 454-477),
  * `excel_summary_col`     — the per-column latest/delta summary of
                              `make_excel_report` (src/app.py lines 500-509).

Modelling conventions:
  * Python floats are modelled as `ℚ` (only exact arithmetic — parsing and
    subtraction — is performed on them in the source).
  * Fallible Python code (raising) is modelled with `Except Unit`.
  * pandas `sort_index` is modelled by the stable `List.insertionSort`; the
    theorems that depend on the relative order of equal keys carry `Nodup`
    hypotheses on the keys, where any correct sort agrees.
  * pandas column assignment `out[c] = s` aligns `s` on `out`'s index; the
    embedding looks each index label up in `s`.  pandas raises when `s` has
    duplicate index labels that need broadcasting; the embedding uses the
    first match, and theorems touching that path assume label uniqueness.
-/

namespace CostTrend

/-- Numeric value of a digit character; Python's `\d` and `int` accept both the
ASCII digits and the full-width digits U+FF10 – U+FF19. -/
def digitVal (c : Char) : Nat :=
  if c.isDigit then c.toNat - 48 else c.toNat - 65296

/-- Python `int` on a string of digit characters. -/
def natOfDigits (cs : List Char) : Nat :=
  cs.foldl (fun a c => a * 10 + digitVal c) 0

/-- `seqOccurs needle hay` holds iff `needle` occurs contiguously in `hay`. -/
def seqOccurs (needle : List Char) : List Char → Bool
  | [] => needle.isEmpty
  | c :: rest => needle.isPrefixOf (c :: rest) || seqOccurs needle rest

/-- Python's substring test `needle in hay`. -/
def strContainsB (hay needle : String) : Bool :=
  seqOccurs needle.data hay.data

/-- Whitespace removed by Python `str.strip()` (incl. the ideographic space). -/
def isStripSpace (c : Char) : Bool :=
  c.isWhitespace || c == '　'

/-- Python `ln.strip()`. -/
def pyStrip (s : String) : String :=
  ⟨((s.data.dropWhile isStripSpace).reverse.dropWhile isStripSpace).reverse⟩

/-- Python `dict` built by inserting the pairs of `l` left to right: keys keep
their first-insertion position, a repeated key overwrites the stored value. -/
def pyDict {α : Type} [DecidableEq α] {β : Type} (l : List (α × β)) : List (α × β) :=
  l.foldl (fun acc p =>
    if acc.any (fun q => decide (q.1 = p.1)) then
      acc.map (fun q => if q.1 = p.1 then p else q)
    else acc ++ [p]) []

/-- pandas `s[~s.index.duplicated(keep="last")]`: keep an entry iff its key does
not occur again later in the list. -/
def dedupKeepLast {α : Type} [DecidableEq α] {β : Type} : List (α × β) → List (α × β)
  | [] => []
  | p :: rest =>
    if rest.any (fun q => decide (q.1 = p.1)) then dedupKeepLast rest
    else p :: dedupKeepLast rest

/-- Linear index of a calendar month `(year, month)`, used to compare months. -/
def mIdx (m : Nat × Nat) : Nat := m.1 * 12 + m.2

/-- Comparison of month-keyed entries by their month, the order `sort_index`
sorts by. -/
def keyR {α : Type} (a b : (Nat × Nat) × α) : Prop := mIdx a.1 ≤ mIdx b.1

instance {α : Type} : DecidableRel (@keyR α) := fun _ _ => Nat.decLe _ _

instance {α : Type} : IsTotal ((Nat × Nat) × α) (@keyR α) :=
  ⟨fun _ _ => Nat.le_total _ _⟩

instance {α : Type} : IsTrans ((Nat × Nat) × α) (@keyR α) :=
  ⟨fun _ _ _ => Nat.le_trans⟩

/-! ## FRED fetch (src/app.py lines 65-82)

An observation as returned in the `observations` JSON list: a string date and a
string value, either of which may be absent (pandas turns an absent field into
NaN/NaT). -/

structure Obs where
  date : Option String
  value : Option String
deriving DecidableEq, Repr

/-- `pd.to_datetime` on a FRED date string; FRED serves ISO `YYYY-MM-DD` dates,
which is the shape modelled here.  The result is the key `y*10000+m*100+d`. -/
def parseFredDate (s : String) : Option Nat :=
  match s.data with
  | [y1, y2, y3, y4, '-', m1, m2, '-', d1, d2] =>
    if ([y1, y2, y3, y4, m1, m2, d1, d2].all Char.isDigit) then
      let m := natOfDigits [m1, m2]
      let d := natOfDigits [d1, d2]
      if (1 ≤ m && m ≤ 12) && (1 ≤ d && d ≤ 31) then
        some (natOfDigits [y1, y2, y3, y4] * 10000 + m * 100 + d)
      else none
    else none
  | _ => none

/-- `pd.to_numeric(·, errors="coerce")` / Python `float` on a decimal string:
optional sign, then digits with an optional fractional part; anything else
coerces to NaN (`none`).  (Exponent forms are not exercised here.) -/
def toNumericQ (s : String) : Option ℚ :=
  let core : List Char → Option ℚ := fun cs1 =>
    let intd := cs1.takeWhile Char.isDigit
    let rest := cs1.drop intd.length
    match rest with
    | [] => if intd.isEmpty then none else some ((natOfDigits intd : ℚ))
    | '.' :: fr =>
      if fr.all Char.isDigit && !(intd.isEmpty && fr.isEmpty) then
        some ((natOfDigits intd : ℚ) + (natOfDigits fr : ℚ) / (10 : ℚ) ^ fr.length)
      else none
    | _ => none
  match s.data with
  | '-' :: r => (core r).map (fun q => -q)
  | '+' :: r => core r
  | r => core r

/-- One row of `df.dropna()`: the row survives iff both fields are present, the
date parses and the value coerces to a number. -/
def cleanObs (o : Obs) : Option (Nat × ℚ) :=
  match o.date, o.value with
  | some d, some v =>
    match parseFredDate d, toNumericQ v with
    | some dd, some vv => some (dd, vv)
    | _, _ => none
  | _, _ => none

/-- Order used by `sort_index` on the FRED series: by date key. -/
def obsLE (a b : Nat × ℚ) : Prop := a.1 ≤ b.1

instance : DecidableRel obsLE := fun _ _ => Nat.decLe _ _

instance : IsTotal (Nat × ℚ) obsLE := ⟨fun _ _ => Nat.le_total _ _⟩

instance : IsTrans (Nat × ℚ) obsLE := ⟨fun _ _ _ => Nat.le_trans⟩

/-- src/app.py lines 78-82:
`df = pd.DataFrame(obs)[["date","value"]]` raises `KeyError` when a column is
absent (empty batch, or no record carries the field); `pd.to_datetime` raises
on a present-but-unparseable date; then
`df.dropna().set_index("date")["value"].sort_index()` — rows with a missing or
uncoercible field are dropped and the rest is sorted by date.  No
deduplication is performed. -/
def fetch_fred (obs : List Obs) : Except Unit (List (Nat × ℚ)) :=
  if obs.isEmpty then .error ()
  else if obs.all (fun o => o.date.isNone) then .error ()
  else if obs.all (fun o => o.value.isNone) then .error ()
  else if obs.any (fun o => match o.date with
    | some s => (parseFredDate s).isNone
    | none => false) then .error ()
  else .ok (List.insertionSort obsLE (obs.filterMap cleanObs))

/-- The duplicate-dates batch named by claim C1. -/
def fredDupBatch : List Obs :=
  [⟨some "2024-01-01", some "10"⟩, ⟨some "2024-01-01", some "20"⟩]

/-- A well-formed two-observation batch used as witness input. -/
def fredOkBatch : List Obs :=
  [⟨some "2024-02-01", some "5"⟩, ⟨some "2024-01-01", some "10.5"⟩,
   ⟨some "2024-03-01", some "."⟩, ⟨none, some "7"⟩]

/-! ## WebKIT PDF fiscal-table extractor (src/app.py lines 102-163) -/

/-- The two era labels the extractor recognizes (平成 = Heisei, 令和 = Reiwa). -/
inductive Era where
  | heisei
  | reiwa
deriving DecidableEq, Repr

/-- Characters matched by Python's `\d` on this data: ASCII or full-width digits. -/
def isDigitJP (c : Char) : Bool :=
  c.isDigit || ('０' ≤ c && c ≤ '９')

/-- Whitespace matched by `\s` in the era regex (space, tab, ideographic space). -/
def isSpaceJP (c : Char) : Bool :=
  c == ' ' || c == '\t' || c == '　'

/-- Helper for `digitRuns`: scan the characters, accumulating the current run of
digits (in reverse) in `acc`. -/
def digitRunsAux : List Char → List Char → List String
  | [], acc => if acc.isEmpty then [] else [⟨acc.reverse⟩]
  | c :: rest, acc =>
    if isDigitJP c then digitRunsAux rest (c :: acc)
    else if acc.isEmpty then digitRunsAux rest []
    else ⟨acc.reverse⟩ :: digitRunsAux rest []

/-- `re.findall(r"\d+", ln)`: the maximal runs of digit characters of the line. -/
def digitRuns (ln : String) : List String :=
  digitRunsAux ln.data []

/-- Python `int` of a digit-run token. -/
def strToNat (s : String) : Nat :=
  natOfDigits s.data

/-- `re.match(r"^(平成|令和).+年度", ln)`: the line starts with an era label,
and `年度` occurs after at least one further character. -/
def rowFilterB (ln : String) : Bool :=
  let cs := ln.data
  ("平成".data.isPrefixOf cs || "令和".data.isPrefixOf cs) &&
    seqOccurs "年度".data (cs.drop 3)

/-- Attempt of the era-label regex `(平成|令和)\s*([0-9]+)\s*年度` at the current
position: an era label, optional spaces, ASCII digits, optional spaces, `年度`. -/
def eraMatchAt (cs : List Char) : Option (Era × Nat) :=
  let tryEra : Era → List Char → Option (Era × Nat) := fun era rest =>
    let r1 := rest.dropWhile isSpaceJP
    let ds := r1.takeWhile Char.isDigit
    if ds.isEmpty then none
    else
      let r2 := (r1.drop ds.length).dropWhile isSpaceJP
      if "年度".data.isPrefixOf r2 then some (era, natOfDigits ds) else none
  if "平成".data.isPrefixOf cs then tryEra Era.heisei (cs.drop 2)
  else if "令和".data.isPrefixOf cs then tryEra Era.reiwa (cs.drop 2)
  else none

/-- Leftmost-match scan for the era-label regex. -/
def eraSearchAux : List Char → Option (Era × Nat)
  | [] => none
  | c :: rest =>
    match eraMatchAt (c :: rest) with
    | some r => some r
    | none => eraSearchAux rest

/-- `re.search(r"(平成|令和)\s*([0-9]+)\s*年度", ln)`.  (The source retries with
a second, space-free pattern when this fails; every match of that pattern is
already a match of this one, so the retry adds nothing.) -/
def eraSearch (ln : String) : Option (Era × Nat) :=
  eraSearchAux ln.data

/-- The per-line body of the extraction loop (src/app.py lines 117-156): keep the
line only if it matches the fiscal-row pattern, carries at least 12 numeric
tokens and an era label parses; then take the last 12 tokens as the values of
April(start_year) … March(start_year+1), with start_year = 2018+n for 令和 and
1988+n for 平成. -/
def processLine (ln : String) : List ((Nat × Nat) × Nat) :=
  if rowFilterB ln then
    let nums := digitRuns ln
    if nums.length < 12 then []
    else
      match eraSearch ln with
      | none => []
      | some (era, n) =>
        let start_year := if era = Era.reiwa then 2018 + n else 1988 + n
        let month_vals := (nums.drop (nums.length - 12)).map strToNat
        let ym := (List.range 9).map (fun i => (start_year, 4 + i)) ++
          [(start_year + 1, 1), (start_year + 1, 2), (start_year + 1, 3)]
        ym.zip month_vals
  else []

/-- src/app.py lines 107-163 on the list of text lines extracted from the PDF:
strip each line, drop empties, extract the fiscal-row data points, build a dict
keyed by month (last occurrence wins) and sort by month.  (The final
`duplicated(keep="last")` filter is a no-op after the dict.) -/
def fetch_webkit_index_from_pdf (rawLines : List String) : List ((Nat × Nat) × Nat) :=
  let lines := (rawLines.map pyStrip).filter (fun l => !(l == ""))
  let data_points := List.flatten (lines.map processLine)
  List.insertionSort keyR (pyDict data_points)

/-- The fiscal row with only 9 monthly values named by claim C2 (its numeric
tokens are the era number 7 plus the nine values: 10 tokens, fewer than 12). -/
def webkitNineLine : String :=
  "令和7年度 100 101 102 103 104 105 106 107 108"

/-- A full fiscal row for 令和7 (12 monthly values). -/
def webkitReiwaLine : String :=
  "令和7年度 100 101 102 103 104 105 106 107 108 109 110 111"

/-- A full fiscal row for 平成1 (12 monthly values). -/
def webkitHeiseiLine : String :=
  "平成1年度 90 91 92 93 94 95 96 97 98 99 100 101"

/-! ## e-Stat labeled-dimension extractor (src/app.py lines 212-291)

The JSON documents served by the e-Stat API encode every leaf as a string, so
the payload model has string leaves, objects (assoc lists in insertion order)
and arrays.  Raised Python exceptions (`KeyError`, `AttributeError`,
`TypeError`) are modelled as `Except.error ()`. -/

inductive J where
  | s : String → J
  | obj : List (String × J) → J
  | arr : List J → J

/-- Python `d[k]` on a payload node: `KeyError` when the key is absent,
`TypeError` when the node is not a dict. -/
def jIndex (j : J) (k : String) : Except Unit J :=
  match j with
  | .obj l =>
    match l.find? (fun p => p.1 == k) with
    | some p => Except.ok p.2
    | none => Except.error ()
  | _ => Except.error ()

/-- Python `d.get(k)` (default `None`) on a dict node; raises on non-dicts. -/
def jGetOpt (j : J) (k : String) : Option J :=
  match j with
  | .obj l => (l.find? (fun p => p.1 == k)).map Prod.snd
  | _ => none

/-- Require a string leaf (the class codes and labels are strings). -/
def asStr : J → Except Unit String
  | .s s => Except.ok s
  | _ => Except.error ()

/-- Python truthiness of a payload node (`if not stat`). -/
def jFalsy : J → Bool
  | .s s => s == ""
  | .obj l => l.isEmpty
  | .arr l => l.isEmpty

/-- `to_map(obj)` (src/app.py lines 215-219): wrap a single `CLASS` dict in a
list, then build the dict `{c["@code"]: c["@name"]}`. -/
def toClassMap (o : J) : Except Unit (List (String × String)) := do
  let cls ← jIndex o "CLASS"
  let clsList ← match cls with
    | .obj _ => Except.ok [cls]
    | .arr l => Except.ok l
    | _ => Except.error ()
  let pairs ← clsList.mapM (fun c => do
    let code ← (jIndex c "@code") >>= asStr
    let lab ← (jIndex c "@name") >>= asStr
    Except.ok (code, lab))
  Except.ok (pyDict pairs)

/-- src/app.py lines 212-221: `{obj["@id"]: to_map(obj) for obj in
root["CLASS_INF"]["CLASS_OBJ"]}`.  Iterating a non-list `CLASS_OBJ` fails in
Python (string keys / characters are then indexed with `"@id"`), hence the
error case. -/
def estat_build_class_maps (root : J) : Except Unit (List (String × List (String × String))) := do
  let ci ← jIndex root "CLASS_INF"
  let co ← jIndex ci "CLASS_OBJ"
  match co with
  | .arr objs => do
    let axes ← objs.mapM (fun o => do
      let idS ← (jIndex o "@id") >>= asStr
      let m ← toClassMap o
      Except.ok (idS, m))
    Except.ok (pyDict axes)
  | _ => Except.error ()

/-- The set of codes, over every axis, whose label contains `needle`
(src/app.py lines 239-244; the Python `set` is modelled as a list, used only
through membership and emptiness). -/
def codesMatching (maps : List (String × List (String × String))) (needle : String) :
    List String :=
  (List.flatten (maps.map Prod.snd)).filterMap
    (fun p => if strContainsB p.2 needle then some p.1 else none)

/-- `[v[k] for k in v.keys() if k.startswith("@cat")]` (src/app.py line 254). -/
def catCodes : J → List J
  | .obj l => (l.filter (fun p => "@cat".data.isPrefixOf p.1.data)).map Prod.snd
  | _ => []

/-- Membership of a record's category-code value in a code set; a non-string
value is simply never a member. -/
def codeMem (codes : List String) (c : J) : Bool :=
  match c with
  | .s s => codes.contains s
  | _ => false

/-- The record filter of the extraction loop (src/app.py lines 255-258):
a non-empty industry-code set must meet the record's codes, and likewise for
the item-code set. -/
def estatAcceptDims (indC itemC : List String) (v : J) : Bool :=
  (indC.isEmpty || (catCodes v).any (codeMem indC)) &&
    (itemC.isEmpty || (catCodes v).any (codeMem itemC))

/-- `float(val)` inside the `try` (src/app.py line 261): only a numeric string
converts, anything else is skipped by the bare `except`. -/
def floatOfJ : J → Option ℚ
  | .s s => toNumericQ s
  | _ => none

/-- The extraction loop over `values` (src/app.py lines 246-263): skip records
without `@time` or `$`, apply the dimension filter, skip records whose value
does not convert; a non-dict record raises. -/
def estatRows (indC itemC : List String) : List J → Except Unit (List (J × ℚ))
  | [] => Except.ok []
  | v :: rest =>
    match v with
    | .obj _ =>
      match jGetOpt v "@time", jGetOpt v "$" with
      | some t, some val =>
        if estatAcceptDims indC itemC v then
          match floatOfJ val with
          | some q => do
            let r ← estatRows indC itemC rest
            Except.ok ((t, q) :: r)
          | none => estatRows indC itemC rest
        else estatRows indC itemC rest
      | _, _ => estatRows indC itemC rest
    | _ => Except.error ()

/-- `datetime.strptime(t, "%Y%m")` on a zero-padded time label. -/
def parseYYYYMM (cs : List Char) : Option (Nat × Nat) :=
  if cs.length == 6 && cs.all Char.isDigit then
    let m := natOfDigits (cs.drop 4)
    if 1 ≤ m && m ≤ 12 then some (natOfDigits (cs.take 4), m) else none
  else none

/-- `datetime.strptime(t, "%Y-%m")` on a zero-padded time label. -/
def parseYdashM (cs : List Char) : Option (Nat × Nat) :=
  match cs with
  | [y1, y2, y3, y4, '-', m1, m2] =>
    if [y1, y2, y3, y4, m1, m2].all Char.isDigit then
      let m := natOfDigits [m1, m2]
      if 1 ≤ m && m ≤ 12 then some (natOfDigits [y1, y2, y3, y4], m) else none
    else none
  | _ => none

/-- `datetime.strptime(t, "%Y-%m-%d")` on a zero-padded time label; only the
month is retained (the index is normalized to the first of the month). -/
def parseYdashMdashD (cs : List Char) : Option (Nat × Nat) :=
  match cs with
  | [y1, y2, y3, y4, '-', m1, m2, '-', d1, d2] =>
    if [y1, y2, y3, y4, m1, m2, d1, d2].all Char.isDigit then
      let m := natOfDigits [m1, m2]
      let d := natOfDigits [d1, d2]
      if (1 ≤ m && m ≤ 12) && (1 ≤ d && d ≤ 31) then
        some (natOfDigits [y1, y2, y3, y4], m)
      else none
    else none
  | _ => none

/-- The prioritized time-label parse (src/app.py lines 271-286): the three
formats in order, then a generic parse as last resort (modelled as failing —
the time labels of this API are one of the three zero-padded forms); a record
whose label never parses is dropped. -/
def parseTimeJ : J → Option (Nat × Nat)
  | .s s =>
    match parseYYYYMM s.data with
    | some r => some r
    | none =>
      match parseYdashM s.data with
      | some r => some r
      | none => parseYdashMdashD s.data
  | _ => none

/-- The body of `estat_series_from_statsdata` once a truthy `STATISTICAL_DATA`
node is in hand (src/app.py lines 229-291): build the class maps and code
sets, filter the records, parse the time labels, sort by month and deduplicate
keeping the last occurrence. -/
def estat_series_inner (stat : J) (industry_contains item_contains : String) :
    Except Unit (List ((Nat × Nat) × ℚ)) := do
  let class_maps ← estat_build_class_maps stat
  let di ← jIndex stat "DATA_INF"
  let valuesJ ← jIndex di "VALUE"
  let values ← match valuesJ with
    | .obj _ => Except.ok [valuesJ]
    | .arr l => Except.ok l
    | _ => Except.error ()
  let industry_codes := codesMatching class_maps industry_contains
  let item_codes := codesMatching class_maps item_contains
  let rows ← estatRows industry_codes item_codes values
  let pts := rows.filterMap (fun p => (parseTimeJ p.1).map (fun ym => (ym, p.2)))
  Except.ok (dedupKeepLast (List.insertionSort keyR pts))

/-- src/app.py lines 223-291, `estat_series_from_statsdata`:
`gsd = json_data.get("GET_STATS_DATA", {})`, `stat = gsd.get("STATISTICAL_DATA")`
(raising when `gsd` is not a dict), `if not stat: return empty`, then the main
extraction of `estat_series_inner`. -/
def estat_series_from_statsdata (json_data : J) (industry_contains item_contains : String) :
    Except Unit (List ((Nat × Nat) × ℚ)) :=
  match json_data with
  | .obj l =>
    match ((l.find? (fun p => p.1 == "GET_STATS_DATA")).map Prod.snd).getD (J.obj []) with
    | .obj l2 =>
      match (l2.find? (fun p => p.1 == "STATISTICAL_DATA")).map Prod.snd with
      | none => Except.ok []
      | some stat =>
        if jFalsy stat then Except.ok []
        else estat_series_inner stat industry_contains item_contains
    | _ => Except.error ()
  | _ => Except.error ()

/-- The condition of claim C5 on an object payload: `GET_STATS_DATA` absent, or
an object in which `STATISTICAL_DATA` is absent or falsy. -/
def rootMissingOrEmpty (l : List (String × J)) : Prop :=
  (l.find? (fun p => p.1 == "GET_STATS_DATA")).map Prod.snd = none ∨
  ∃ l2, (l.find? (fun p => p.1 == "GET_STATS_DATA")).map Prod.snd = some (J.obj l2) ∧
    ((l2.find? (fun p => p.1 == "STATISTICAL_DATA")).map Prod.snd = none ∨
     ∃ stat, (l2.find? (fun p => p.1 == "STATISTICAL_DATA")).map Prod.snd = some stat ∧
       jFalsy stat = true)

/-- Payload refuting C5 as stated: `GET_STATS_DATA` present but not an object,
so `GET_STATS_DATA.STATISTICAL_DATA` is missing, yet `.get` raises. -/
def c5BadPayload : J :=
  J.obj [("GET_STATS_DATA", J.s "x")]

/-- Payload for claim C9: `STATISTICAL_DATA` present and non-empty, but without
`CLASS_INF`. -/
def c9Payload : J :=
  J.obj [("GET_STATS_DATA", J.obj [("STATISTICAL_DATA",
    J.obj [("DATA_INF", J.obj [("VALUE", J.arr [])])])])]

/-- One observation record carrying code `c1`, used by the C4 counterexample. -/
def c4Record : J :=
  J.obj [("@time", J.s "202401"), ("$", J.s "10"), ("@cat01", J.s "c1")]

/-- Payload for the C4 counterexample: one axis `cat01` mapping code `c1` to
label `foo`, one record with `@cat01 = c1`. -/
def c4Payload : J :=
  J.obj [("GET_STATS_DATA", J.obj [("STATISTICAL_DATA", J.obj [
    ("CLASS_INF", J.obj [("CLASS_OBJ", J.arr [
      J.obj [("@id", J.s "cat01"),
             ("CLASS", J.obj [("@code", J.s "c1"), ("@name", J.s "foo")])]])]),
    ("DATA_INF", J.obj [("VALUE", J.arr [c4Record])])])])]

instance {ε α : Type} [DecidableEq ε] [DecidableEq α] : DecidableEq (Except ε α) := fun a b =>
  match a, b with
  | .ok x, .ok y =>
    if h : x = y then .isTrue (by rw [h]) else .isFalse (fun hh => h (Except.ok.inj hh))
  | .error x, .error y =>
    if h : x = y then .isTrue (by rw [h]) else .isFalse (fun hh => h (Except.error.inj hh))
  | .ok _, .error _ => .isFalse (fun hh => Except.noConfusion hh)
  | .error _, .ok _ => .isFalse (fun hh => Except.noConfusion hh)

/-! ## Monthly master table (src/app.py lines 454-477)

A date index entry is `(year, month, day)`; `to_period("M").to_timestamp("MS")`
maps it to its month.  A DataFrame/Series cell is `Option ℚ` (`none` = NaN).
The auxiliary columns only exist when the corresponding input series was
non-empty, recorded by the `hasWebkit` / `hasWage` flags. -/

abbrev MDate := Nat × Nat × Nat

/-- `to_period("M").to_timestamp("MS")`: the month containing a date. -/
def monthOf (d : MDate) : Nat × Nat := (d.1, d.2.1)

/-- A row of the primary FRED frame `df_fred` (the two converted columns). -/
structure PRow where
  copper : Option ℚ
  aluminum : Option ℚ
deriving DecidableEq, Repr

/-- A row of the master table. -/
structure MRow where
  copper : Option ℚ
  aluminum : Option ℚ
  webkit : Option ℚ
  wage : Option ℚ
deriving DecidableEq, Repr

/-- The master table: month-keyed rows plus which auxiliary columns exist. -/
structure Master where
  rows : List ((Nat × Nat) × MRow)
  hasWebkit : Bool
  hasWage : Bool
deriving DecidableEq, Repr

/-- Alignment of a month-normalized series on an index label, as column
assignment `out[c] = s` does: look the label up in `s` (`none` when absent or
when the stored cell is NaN).  pandas requires the labels of `s` to be unique
where broadcasting is needed; theorems depending on this lookup carry that
uniqueness. -/
def auxCell (s : List ((Nat × Nat) × Option ℚ)) (m : Nat × Nat) : Option ℚ :=
  (s.find? (fun q => decide (q.1 = m))).bind Prod.snd

/-- The unsorted master rows: one row per entry of the normalized primary
index, the auxiliary cells obtained by aligning each non-empty auxiliary
series (itself month-normalized) on that index. -/
def masterRows0 (df_fred : List (MDate × PRow))
    (webkit wage : List (MDate × Option ℚ)) : List ((Nat × Nat) × MRow) :=
  df_fred.map (fun p =>
    (monthOf p.1,
      { copper := p.2.copper
        aluminum := p.2.aluminum
        webkit := if webkit.isEmpty then none
          else auxCell (webkit.map (fun q => (monthOf q.1, q.2))) (monthOf p.1)
        wage := if wage.isEmpty then none
          else auxCell (wage.map (fun q => (monthOf q.1, q.2))) (monthOf p.1) }))

/-- src/app.py lines 454-477: copy the primary frame, normalize its index to
month starts, assign each non-empty auxiliary series as a new column aligned on
that index, and sort by index.  The index set is the primary's — alignment
drops auxiliary months that the primary lacks. -/
def build_monthly_master (df_fred : List (MDate × PRow))
    (webkit wage : List (MDate × Option ℚ)) : Master :=
  { rows := List.insertionSort keyR (masterRows0 df_fred webkit wage)
    hasWebkit := !webkit.isEmpty
    hasWage := !wage.isEmpty }

/-- Extract the primary two columns of a master table as a date-indexed frame
(the index of a month-normalized table carries day 1). -/
def primaryOf (M : Master) : List (MDate × PRow) :=
  M.rows.map (fun q => ((q.1.1, q.1.2, 1), ⟨q.2.copper, q.2.aluminum⟩))

/-- Extract the webkit column of a master table as a series (empty when the
column does not exist). -/
def webkitOf (M : Master) : List (MDate × Option ℚ) :=
  if M.hasWebkit then M.rows.map (fun q => ((q.1.1, q.1.2, 1), q.2.webkit)) else []

/-- Extract the wage column of a master table as a series (empty when the
column does not exist). -/
def wageOf (M : Master) : List (MDate × Option ℚ) :=
  if M.hasWage then M.rows.map (fun q => ((q.1.1, q.1.2, 1), q.2.wage)) else []

/-- Feed a master table back through the merge, its primary columns as the
primary frame and its own auxiliary columns as the auxiliary inputs. -/
def remerge (M : Master) : Master :=
  build_monthly_master (primaryOf M) (webkitOf M) (wageOf M)

/-- Well-formedness of a month-normalized master table: the month index is
strictly increasing, and a column that does not exist holds no values. -/
def Master.WF (M : Master) : Prop :=
  M.rows.Pairwise (fun a b => mIdx a.1 < mIdx b.1) ∧
    (M.hasWebkit = false → ∀ p ∈ M.rows, p.2.webkit = none) ∧
    (M.hasWage = false → ∀ p ∈ M.rows, p.2.wage = none)

instance (M : Master) : Decidable M.WF := by
  unfold Master.WF
  infer_instance

/-- Primary frame used in the C3 counterexample and several witnesses. -/
def exPrimary : List (MDate × PRow) :=
  [((2024, 1, 5), ⟨some 1, some 2⟩)]

/-- Auxiliary freight series whose second month is absent from the primary. -/
def exWebkit : List (MDate × Option ℚ) :=
  [((2024, 1, 1), some 3), ((2024, 2, 1), some 4)]

/-! ## Per-column summary of `make_excel_report` (src/app.py lines 500-509) -/

/-- For one column of the master table: `s = master[col].dropna()`; skip the
column if `s` is empty, else latest = `s.iloc[-1]` and
delta = latest − `s.iloc[-2]` when `s` has at least two points, else `None`. -/
def excel_summary_col (col : List (Option ℚ)) : Option (ℚ × Option ℚ) :=
  let s := col.filterMap id
  if s.isEmpty then none
  else
    let vNow := s.getLastD 0
    let delta := if 2 ≤ s.length then some (vNow - s.getD (s.length - 2) 0) else none
    some (vNow, delta)

/-- The example column of claim C7 (with an interior null to drop). -/
def c7Col : List (Option ℚ) := [some 100, none, some 110, some 105]

/-- The series the witness batch `fredOkBatch` parses to. -/
def fredOkOut : List (Nat × ℚ) :=
  List.insertionSort obsLE (fredOkBatch.filterMap cleanObs)

/-- A non-empty well-formed master table used as the C8 witness. -/
def wfMaster : Master :=
  ⟨[((2024, 1), ⟨some 1, some 2, some 3, none⟩),
    ((2024, 2), ⟨some 5, none, none, none⟩)], true, false⟩

/-! ## Helper lemmas -/

/-- In a list whose month keys are distinct (compared through `mIdx`), `find?`
on a key returns exactly the entry carrying that key. -/
theorem find_key_self {β : Type} (l : List ((Nat × Nat) × β))
    (hnd : (l.map (fun p => mIdx p.1)).Nodup) :
    ∀ p ∈ l, l.find? (fun q => decide (q.1 = p.1)) = some p := by
  induction l with
  | nil => intro p hp; cases hp
  | cons h t ih =>
    intro p hp
    rw [List.map_cons, List.nodup_cons] at hnd
    rcases List.mem_cons.mp hp with rfl | hpt
    · exact List.find?_cons_of_pos _ (by simp)
    · have hne : ¬ (h.1 = p.1) := by
        intro he
        exact hnd.1 (by
          rw [he]
          exact List.mem_map.mpr ⟨p, hpt, rfl⟩)
      rw [List.find?_cons]
      simp only [decide_eq_false hne]
      exact ih hnd.2 p hpt

/-! ## Claim theorems -/

/-- C9: the no-raise guarantee of the labeled-dimension extractor covers only
the top statistical-data root — on a payload whose `STATISTICAL_DATA` is
present and non-empty but lacks `CLASS_INF`, the extractor raises a key-lookup
error instead of returning an empty series. -/
theorem estat_nested_missing_raises :
    estat_series_from_statsdata c9Payload "製造業" "現金給与総額" = Except.error () := by
  rfl

/-- C2 (amended): a recognized fiscal-year row whose line carries fewer than 12
numeric tokens is skipped entirely — it contributes no monthly points at all
(the source requires at least 12 tokens before emitting anything). -/
theorem processLine_short_row_skipped (ln : String)
    (h : (digitRuns ln).length < 12) :
    processLine ln = [] := by
  unfold processLine
  split
  · exact if_pos h
  · rfl

/-- C2 witness: the 9-value fiscal row produces no points. -/
theorem processLine_short_row_skipped_witness :
    processLine webkitNineLine = [] :=
  processLine_short_row_skipped webkitNineLine (by decide)

/-- C2 counterexample: `webkitNineLine` is a recognized 令和7 fiscal row whose
line carries 10 numeric tokens (the era number plus nine monthly values, fewer
than 12), yet the extractor emits zero points for it, not nine. -/
theorem webkit_nine_token_row_cex :
    rowFilterB webkitNineLine = true ∧
    eraSearch webkitNineLine = some (Era.reiwa, 7) ∧
    (digitRuns webkitNineLine).length = 10 ∧
    fetch_webkit_index_from_pdf [webkitNineLine] = [] := by
  exact ⟨rfl, rfl, rfl, rfl⟩

/-- C1 counterexample: on the duplicate-dates batch the parsed series retains
both observations — two points on the same key, not the single point
`2024-01 → 20` the claim predicts. -/
theorem fetch_fred_dup_dates_cex :
    fetch_fred fredDupBatch = Except.ok [(20240101, (10 : ℚ)), (20240101, 20)] ∧
    ¬ (fetch_fred fredDupBatch).map List.length = Except.ok 1 := by
  exact ⟨by decide, by decide⟩

/-- C5 counterexample: a payload in which `GET_STATS_DATA.STATISTICAL_DATA` is
missing (because `GET_STATS_DATA` holds a string) makes the extractor raise
(`.get` on a non-dict) instead of returning an empty series. -/
theorem estat_nonobj_root_raises_cex :
    estat_series_from_statsdata c5BadPayload "製造業" "現金給与総額" = Except.error () := by
  rfl

/-- C5 (amended): for every object payload in which `GET_STATS_DATA` is absent,
or is an object whose `STATISTICAL_DATA` is absent or falsy, the extractor
returns the empty series and never raises.  (When `GET_STATS_DATA` is present
but not an object the extractor raises, per the counterexample.) -/
theorem estat_missing_root_empty (l : List (String × J)) (ind item : String)
    (h : rootMissingOrEmpty l) :
    estat_series_from_statsdata (J.obj l) ind item = Except.ok [] := by
  simp only [estat_series_from_statsdata]
  rcases h with h1 | ⟨l2, h1, h2⟩
  · rw [h1]
    rfl
  · rw [h1]
    simp only [Option.getD_some]
    rcases h2 with h2 | ⟨stat, h2, hf⟩
    · rw [h2]
    · rw [h2]
      show (if jFalsy stat = true then Except.ok [] else
        estat_series_inner stat ind item) = Except.ok []
      rw [if_pos hf]

/-- C5 witness: the empty object payload yields the empty series. -/
theorem estat_missing_root_empty_witness :
    estat_series_from_statsdata (J.obj []) "製造業" "現金給与総額" = Except.ok [] :=
  estat_missing_root_empty [] "製造業" "現金給与総額" (Or.inl rfl)

/-- C1 (amended): for every observation batch the FRED fetch parses, the
produced series drops exactly the pairs whose value fails float coercion or
whose fields are absent and is sorted non-decreasingly by date; duplicate
dates are all retained — the result is a permutation of the cleaned batch, not
a deduplicated one. -/
theorem fetch_fred_sorted_keeps_all (obs : List Obs) (l : List (Nat × ℚ))
    (h : fetch_fred obs = Except.ok l) :
    List.Sorted obsLE l ∧ l.Perm (obs.filterMap cleanObs) := by
  unfold fetch_fred at h
  split at h
  · cases h
  · split at h
    · cases h
    · split at h
      · cases h
      · split at h
        · cases h
        · cases h
          exact ⟨List.sorted_insertionSort obsLE _, List.perm_insertionSort obsLE _⟩

/-- C1 witness: the sample batch parses to a sorted permutation of its cleaned
pairs (the dot-value and missing-date observations are dropped). -/
theorem fetch_fred_sorted_keeps_all_witness :
    List.Sorted obsLE fredOkOut ∧ fredOkOut.Perm (fredOkBatch.filterMap cleanObs) :=
  fetch_fred_sorted_keeps_all fredOkBatch fredOkOut rfl

/-- C7: for one column of the master table, the summary drops nulls, takes the
last remaining value as latest and the second-to-last as previous, and reports
delta = latest − previous, with delta null when fewer than two values remain. -/
theorem excel_summary_delta_spec (col : List (Option ℚ)) :
    (∀ v : ℚ, col.filterMap id = [v] → excel_summary_col col = some (v, none)) ∧
    (∀ (pre : List ℚ) (vprev vnow : ℚ), col.filterMap id = pre ++ [vprev, vnow] →
      excel_summary_col col = some (vnow, some (vnow - vprev))) := by
  constructor
  · intro v h
    unfold excel_summary_col
    rw [h]
    rfl
  · intro pre vprev vnow h
    unfold excel_summary_col
    rw [h]
    rw [if_neg (by simp)]
    have hlast : (pre ++ [vprev, vnow]).getLastD 0 = vnow := by
      rw [show pre ++ [vprev, vnow] = (pre ++ [vprev]) ++ [vnow] by simp]
      exact List.getLastD_concat _ _ _
    have hlen : (pre ++ [vprev, vnow]).length = pre.length + 2 := by simp
    have hprev : (pre ++ [vprev, vnow]).getD ((pre ++ [vprev, vnow]).length - 2) 0 = vprev := by
      rw [List.getD_eq_getElem?_getD, hlen, Nat.add_sub_cancel,
        List.getElem?_append_right (Nat.le_refl _)]
      simp
    rw [hlast, hprev]
    simp [hlen, Nat.le_add_left]

/-- C7 witness: the example column `[100, null, 110, 105]` yields latest 105
and delta 105 − 110 = −5; a single-point column yields a null delta. -/
theorem excel_summary_delta_spec_witness :
    excel_summary_col c7Col = some (105, some (105 - 110)) ∧
    excel_summary_col [some 42] = some (42, none) :=
  ⟨(excel_summary_delta_spec c7Col).2 [100] 110 105 rfl,
   (excel_summary_delta_spec [some 42]).1 42 rfl⟩

/-- One conjunct of the record filter, characterized declaratively: the test
passes iff the code set is empty or some category code of the record is a
string belonging to it. -/
theorem estat_accept_side (codes : List String) (v : J) :
    (codes.isEmpty || (catCodes v).any (codeMem codes)) = true ↔
      (codes = [] ∨ ∃ c, c ∈ catCodes v ∧ ∃ s, c = J.s s ∧ s ∈ codes) := by
  rw [Bool.or_eq_true, List.isEmpty_iff, List.any_eq_true]
  apply or_congr Iff.rfl
  constructor
  · rintro ⟨c, hc, hm⟩
    cases c with
    | s s =>
      refine ⟨J.s s, hc, s, rfl, ?_⟩
      simpa [codeMem] using hm
    | obj a => simp [codeMem] at hm
    | arr a => simp [codeMem] at hm
  · rintro ⟨c, hc, s, rfl, hs⟩
    refine ⟨J.s s, hc, ?_⟩
    simpa [codeMem] using hs

/-- C4 (amended): the record filter of the labeled-dimension extractor accepts
a record exactly when (the industry-code set is empty OR one of the record's
category codes, from any axis, lies in the set of codes whose label contains
the industry substring) AND (likewise for the item-code set).  A filter that is
present but matches no label yields an empty code set and therefore imposes no
restriction — unlike the claim's "filter absent" reading, per the
counterexample. -/
theorem estat_accept_characterization (maps : List (String × List (String × String)))
    (ind item : String) (v : J) :
    estatAcceptDims (codesMatching maps ind) (codesMatching maps item) v = true ↔
      ((codesMatching maps ind = [] ∨
          ∃ c, c ∈ catCodes v ∧ ∃ s, c = J.s s ∧ s ∈ codesMatching maps ind) ∧
       (codesMatching maps item = [] ∨
          ∃ c, c ∈ catCodes v ∧ ∃ s, c = J.s s ∧ s ∈ codesMatching maps item)) := by
  unfold estatAcceptDims
  rw [Bool.and_eq_true]
  exact and_congr (estat_accept_side _ v) (estat_accept_side _ v)

/-- C4 witness: with both filters matching label `foo`, the record carrying
code `c1` passes the filter. -/
theorem estat_accept_characterization_witness :
    estatAcceptDims (codesMatching [("cat01", [("c1", "foo")])] "foo")
      (codesMatching [("cat01", [("c1", "foo")])] "foo") c4Record = true :=
  (estat_accept_characterization [("cat01", [("c1", "foo")])] "foo" "foo" c4Record).mpr
    ⟨Or.inr ⟨J.s "c1", List.Mem.head _, "c1", rfl, List.Mem.head _⟩,
     Or.inr ⟨J.s "c1", List.Mem.head _, "c1", rfl, List.Mem.head _⟩⟩

/-- C4 counterexample: the industry filter `"bar"` is present but matches no
label, so its code set is empty; by the claim the record (whose codes are not
in that empty set) must be rejected and the series come out empty, yet the
extractor accepts it and returns the point `2024-01 → 10`. -/
theorem estat_filter_unmatched_cex :
    codesMatching [("cat01", [("c1", "foo")])] "bar" = [] ∧
    estat_series_from_statsdata c4Payload "bar" "foo" =
      Except.ok [((2024, 1), (10 : ℚ))] := by
  exact ⟨rfl, by decide⟩

/-- C3 (amended): the master table is a left join on the primary's
month-normalized index, not an outer join — its index is exactly the
(sorted) multiset of the primary's normalized months, and a month present only
in an auxiliary series never appears. -/
theorem build_monthly_master_left_join (primary : List (MDate × PRow))
    (webkit wage : List (MDate × Option ℚ)) :
    ((build_monthly_master primary webkit wage).rows.map Prod.fst).Perm
        (primary.map (fun p => monthOf p.1)) ∧
    ((build_monthly_master primary webkit wage).rows.map Prod.fst).Pairwise
        (fun a b => mIdx a ≤ mIdx b) ∧
    ∀ m : Nat × Nat, m ∉ primary.map (fun p => monthOf p.1) →
      m ∉ (build_monthly_master primary webkit wage).rows.map Prod.fst := by
  have hperm : ((build_monthly_master primary webkit wage).rows.map Prod.fst).Perm
      (primary.map (fun p => monthOf p.1)) := by
    have h1 : ((build_monthly_master primary webkit wage).rows.map Prod.fst).Perm
        ((masterRows0 primary webkit wage).map Prod.fst) :=
      (List.perm_insertionSort keyR _).map Prod.fst
    have h2 : (masterRows0 primary webkit wage).map Prod.fst =
        primary.map (fun p => monthOf p.1) := by
      unfold masterRows0
      rw [List.map_map]
      rfl
    rw [h2] at h1
    exact h1
  refine ⟨hperm, ?_, ?_⟩
  · exact (List.sorted_insertionSort keyR (masterRows0 primary webkit wage)).map
      Prod.fst (fun a b hab => hab)
  · intro m hm hmem
    exact hm (hperm.mem_iff.mp hmem)

/-- C3 witness: the master built from the example inputs has no row for the
auxiliary-only month 2024-02. -/
theorem build_monthly_master_left_join_witness :
    ((2024, 2) : Nat × Nat) ∉
      (build_monthly_master exPrimary exWebkit []).rows.map Prod.fst :=
  (build_monthly_master_left_join exPrimary exWebkit []).2.2 (2024, 2) (by decide)

/-- C3 counterexample: month 2024-02 is present in the freight-index input but
the master table has a single row, for 2024-01 only — against the claim,
which requires a row for every month present in any input. -/
theorem build_monthly_master_not_outer_cex :
    ((2024, 2) : Nat × Nat) ∈ exWebkit.map (fun p => monthOf p.1) ∧
    (build_monthly_master exPrimary exWebkit []).rows.map Prod.fst = [(2024, 1)] ∧
    ((2024, 2) : Nat × Nat) ∉
      (build_monthly_master exPrimary exWebkit []).rows.map Prod.fst := by
  exact ⟨by decide, by decide, by decide⟩

/-- C10: the merge never modifies a primary cell — when the normalized primary
months are distinct, the master row found at a primary entry's month carries
exactly that entry's copper and aluminum values; the auxiliary inputs only
populate the two new columns. -/
theorem build_monthly_master_preserves_primary (primary : List (MDate × PRow))
    (webkit wage : List (MDate × Option ℚ))
    (hnd : (primary.map (fun p => mIdx (monthOf p.1))).Nodup) :
    ∀ p ∈ primary, ∃ r : MRow,
      (build_monthly_master primary webkit wage).rows.find?
          (fun q => decide (q.1 = monthOf p.1)) = some (monthOf p.1, r) ∧
      r.copper = p.2.copper ∧ r.aluminum = p.2.aluminum := by
  intro p hp
  have hperm : (build_monthly_master primary webkit wage).rows.Perm
      (masterRows0 primary webkit wage) :=
    List.perm_insertionSort keyR _
  have hmapkeys : ((build_monthly_master primary webkit wage).rows.map
      (fun q => mIdx q.1)).Perm (primary.map (fun p => mIdx (monthOf p.1))) := by
    have h1 := hperm.map (fun q => mIdx q.1)
    have h2 : (masterRows0 primary webkit wage).map (fun q => mIdx q.1) =
        primary.map (fun p => mIdx (monthOf p.1)) := by
      unfold masterRows0
      rw [List.map_map]
      rfl
    rw [h2] at h1
    exact h1
  have hnd2 : ((build_monthly_master primary webkit wage).rows.map
      (fun q => mIdx q.1)).Nodup := hmapkeys.nodup_iff.mpr hnd
  have hmem : (monthOf p.1,
      ({ copper := p.2.copper
         aluminum := p.2.aluminum
         webkit := if webkit.isEmpty then none
           else auxCell (webkit.map (fun q => (monthOf q.1, q.2))) (monthOf p.1)
         wage := if wage.isEmpty then none
           else auxCell (wage.map (fun q => (monthOf q.1, q.2))) (monthOf p.1) } : MRow)) ∈
      (build_monthly_master primary webkit wage).rows := by
    apply hperm.mem_iff.mpr
    exact List.mem_map.mpr ⟨p, hp, rfl⟩
  have hfind := find_key_self _ hnd2 _ hmem
  exact ⟨_, hfind, rfl, rfl⟩

/-- C10 witness: in the example master, the 2024-01 row keeps the primary
values copper = 1 and aluminum = 2 while gaining the freight cell. -/
theorem build_monthly_master_preserves_primary_witness :
    ∃ r : MRow,
      (build_monthly_master exPrimary exWebkit []).rows.find?
          (fun q => decide (q.1 = (2024, 1))) = some ((2024, 1), r) ∧
      r.copper = some 1 ∧ r.aluminum = some 2 :=
  build_monthly_master_preserves_primary exPrimary exWebkit [] (by decide)
    ((2024, 1, 5), ⟨some 1, some 2⟩) (by decide)

/-- C6: a fiscal-year row with era `era`, number `n` and at least 12 numeric
tokens yields exactly 12 points; the k-th point is month April+k of the fiscal
year starting at 2018+n (令和) or 1988+n (平成) — April(start) … December(start)
then January(start+1) … March(start+1) — valued at the k-th of the last 12
numeric tokens of the line. -/
theorem webkit_era_fiscal_assignment (ln : String) (era : Era) (n : Nat)
    (hrow : rowFilterB ln = true)
    (hera : eraSearch ln = some (era, n))
    (hlen : 12 ≤ (digitRuns ln).length) :
    (processLine ln).length = 12 ∧
    ∀ k, k < 12 →
      (processLine ln)[k]? =
        some ((if k < 9 then ((if era = Era.reiwa then 2018 + n else 1988 + n), 4 + k)
               else ((if era = Era.reiwa then 2018 + n else 1988 + n) + 1, k - 8)),
          strToNat ((digitRuns ln).getD ((digitRuns ln).length - 12 + k) "")) := by
  have hproc : processLine ln =
      (((List.range 9).map
          (fun i => ((if era = Era.reiwa then 2018 + n else 1988 + n), 4 + i))) ++
        [((if era = Era.reiwa then 2018 + n else 1988 + n) + 1, 1),
         ((if era = Era.reiwa then 2018 + n else 1988 + n) + 1, 2),
         ((if era = Era.reiwa then 2018 + n else 1988 + n) + 1, 3)]).zip
        (((digitRuns ln).drop ((digitRuns ln).length - 12)).map strToNat) := by
    unfold processLine
    split
    · split
      · rename_i heq
        rw [hera] at heq
        cases heq
      · rename_i heq
        rw [hera] at heq
        cases heq
        split
        · show (if (digitRuns ln).length < 12 then []
            else
              (List.map (fun i => (2018 + n, 4 + i)) (List.range 9) ++
                [(2018 + n + 1, 1), (2018 + n + 1, 2), (2018 + n + 1, 3)]).zip
                (List.map strToNat
                  (List.drop ((digitRuns ln).length - 12) (digitRuns ln)))) = _
          rw [if_neg (by omega : ¬ (digitRuns ln).length < 12)]
        · show (if (digitRuns ln).length < 12 then []
            else
              (List.map (fun i => (1988 + n, 4 + i)) (List.range 9) ++
                [(1988 + n + 1, 1), (1988 + n + 1, 2), (1988 + n + 1, 3)]).zip
                (List.map strToNat
                  (List.drop ((digitRuns ln).length - 12) (digitRuns ln)))) = _
          rw [if_neg (by omega : ¬ (digitRuns ln).length < 12)]
    · rename_i hf
      exact absurd hrow hf
  have hlv : (((digitRuns ln).drop ((digitRuns ln).length - 12)).map strToNat).length = 12 := by
    rw [List.length_map, List.length_drop]
    omega
  constructor
  · rw [hproc, List.length_zip, hlv]
    rfl
  · intro k hk
    rw [hproc]
    apply List.getElem?_zip_eq_some.mpr
    have hL : (digitRuns ln).length - 12 + k < (digitRuns ln).length := by omega
    constructor
    · interval_cases k <;> rfl
    · show ((((digitRuns ln)).drop ((digitRuns ln).length - 12)).map strToNat)[k]? = _
      rw [List.getElem?_map, List.getElem?_drop, List.getElem?_eq_getElem hL,
        List.getD_eq_getElem?_getD, List.getElem?_eq_getElem hL]
      rfl

/-- C6 witness: the 令和7 row starts at April 2025 with value 100 and the
平成1 row starts at April 1989 with value 90. -/
theorem webkit_era_fiscal_assignment_witness :
    (processLine webkitReiwaLine).length = 12 ∧
    (processLine webkitReiwaLine)[0]? = some ((2025, 4), 100) ∧
    (processLine webkitHeiseiLine)[0]? = some ((1989, 4), 90) := by
  refine ⟨(webkit_era_fiscal_assignment webkitReiwaLine Era.reiwa 7
    (by decide) (by decide) (by decide)).1, ?_, ?_⟩
  · have h := (webkit_era_fiscal_assignment webkitReiwaLine Era.reiwa 7
      (by decide) (by decide) (by decide)).2 0 (by omega)
    exact h.trans (by decide)
  · have h := (webkit_era_fiscal_assignment webkitHeiseiLine Era.heisei 1
      (by decide) (by decide) (by decide)).2 0 (by omega)
    exact h.trans (by decide)

/-- Re-aligning a column extracted from month-keyed rows with distinct months
returns each row's own cell. -/
theorem aux_roundtrip (rows : List ((Nat × Nat) × MRow)) (f : MRow → Option ℚ)
    (hnd : (rows.map (fun p => mIdx p.1)).Nodup) :
    ∀ q ∈ rows,
      auxCell ((rows.map (fun r => (((r.1.1, r.1.2, 1) : MDate), f r.2))).map
        (fun r => (monthOf r.1, r.2))) q.1 = f q.2 := by
  intro q hq
  rw [List.map_map]
  have hlist : (rows.map ((fun r => (monthOf r.1, r.2)) ∘
      (fun r => (((r.1.1, r.1.2, 1) : MDate), f r.2)))) =
      rows.map (fun r => (r.1, f r.2)) := rfl
  rw [hlist]
  unfold auxCell
  have hnd2 : ((rows.map (fun r => (r.1, f r.2))).map (fun p => mIdx p.1)).Nodup := by
    rw [List.map_map]
    exact hnd
  have hmem : (q.1, f q.2) ∈ rows.map (fun r => (r.1, f r.2)) :=
    List.mem_map.mpr ⟨q, hq, rfl⟩
  have h2 : (rows.map (fun r => (r.1, f r.2))).find? (fun p => decide (p.1 = q.1)) =
      some (q.1, f q.2) := find_key_self _ hnd2 _ hmem
  rw [h2]
  rfl

/-- C8 (amended): for every non-empty well-formed month-normalized master
table (strictly increasing month index; a column that does not exist holds no
values), feeding the table back through the merge — its primary columns as
the primary frame and its own auxiliary columns as the auxiliary inputs —
reproduces the table exactly.  (A rowless table that declares an auxiliary
column loses that column on re-merge, per the counterexample.) -/
theorem build_monthly_master_idempotent (M : Master) (hwf : M.WF) (hne : M.rows ≠ []) :
    remerge M = M := by
  obtain ⟨hsorted, hwnone, hgnone⟩ := hwf
  have hnd : (M.rows.map (fun p => mIdx p.1)).Nodup := by
    refine List.pairwise_map.mpr ?_
    exact hsorted.imp (fun h => Nat.ne_of_lt h)
  have hw : ∀ q ∈ M.rows,
      (if (webkitOf M).isEmpty then none
       else auxCell ((webkitOf M).map (fun r => (monthOf r.1, r.2))) q.1) = q.2.webkit := by
    intro q hq
    cases hwb : M.hasWebkit with
    | true =>
      have hwOf : webkitOf M =
          M.rows.map (fun r => (((r.1.1, r.1.2, 1) : MDate), r.2.webkit)) := by
        simp [webkitOf, hwb]
      rw [hwOf, if_neg (by simp [List.isEmpty_iff, hne])]
      exact aux_roundtrip M.rows (fun r => r.webkit) hnd q hq
    | false =>
      have hwOf : webkitOf M = [] := by simp [webkitOf, hwb]
      rw [hwOf]
      exact (hwnone hwb q hq).symm
  have hg : ∀ q ∈ M.rows,
      (if (wageOf M).isEmpty then none
       else auxCell ((wageOf M).map (fun r => (monthOf r.1, r.2))) q.1) = q.2.wage := by
    intro q hq
    cases hgb : M.hasWage with
    | true =>
      have hgOf : wageOf M =
          M.rows.map (fun r => (((r.1.1, r.1.2, 1) : MDate), r.2.wage)) := by
        simp [wageOf, hgb]
      rw [hgOf, if_neg (by simp [List.isEmpty_iff, hne])]
      exact aux_roundtrip M.rows (fun r => r.wage) hnd q hq
    | false =>
      have hgOf : wageOf M = [] := by simp [wageOf, hgb]
      rw [hgOf]
      exact (hgnone hgb q hq).symm
  have hrows0 : masterRows0 (primaryOf M) (webkitOf M) (wageOf M) = M.rows := by
    have h1 : masterRows0 (primaryOf M) (webkitOf M) (wageOf M) =
        M.rows.map (fun q => (q.1,
          ({ copper := q.2.copper
             aluminum := q.2.aluminum
             webkit := if (webkitOf M).isEmpty then none
               else auxCell ((webkitOf M).map (fun r => (monthOf r.1, r.2))) q.1
             wage := if (wageOf M).isEmpty then none
               else auxCell ((wageOf M).map (fun r => (monthOf r.1, r.2))) q.1 } : MRow))) := by
      unfold masterRows0 primaryOf
      rw [List.map_map]
      rfl
    have h2 : ∀ q ∈ M.rows, (q.1,
        ({ copper := q.2.copper
           aluminum := q.2.aluminum
           webkit := if (webkitOf M).isEmpty then none
             else auxCell ((webkitOf M).map (fun r => (monthOf r.1, r.2))) q.1
           wage := if (wageOf M).isEmpty then none
             else auxCell ((wageOf M).map (fun r => (monthOf r.1, r.2))) q.1 } : MRow)) =
        id q := by
      intro q hq
      rw [hw q hq, hg q hq]
      rfl
    rw [h1, List.map_congr_left h2, List.map_id]
  have hwb' : (!(webkitOf M).isEmpty) = M.hasWebkit := by
    cases hwb : M.hasWebkit with
    | true => simp [webkitOf, hwb, List.isEmpty_iff, hne]
    | false => simp [webkitOf, hwb]
  have hgb' : (!(wageOf M).isEmpty) = M.hasWage := by
    cases hgb : M.hasWage with
    | true => simp [wageOf, hgb, List.isEmpty_iff, hne]
    | false => simp [wageOf, hgb]
  have hsle : List.Sorted (@keyR MRow) M.rows :=
    hsorted.imp (fun h => Nat.le_of_lt h)
  show build_monthly_master (primaryOf M) (webkitOf M) (wageOf M) = M
  unfold build_monthly_master
  rw [hrows0, List.Sorted.insertionSort_eq hsle, hwb', hgb']

/-- C8 witness: the two-row well-formed master reproduces itself. -/
theorem build_monthly_master_idempotent_witness :
    remerge wfMaster = wfMaster :=
  build_monthly_master_idempotent wfMaster (by decide) (by decide)

/-- C8 counterexample: the master built from an empty primary and a one-point
freight series has no rows but declares the freight column; re-merging it
drops that column, so the result differs from the original. -/
theorem remerge_empty_table_cex :
    remerge (build_monthly_master [] [((2024, 1, 1), some 3)] []) ≠
      build_monthly_master [] [((2024, 1, 1), some 3)] [] := by
  decide

end CostTrend
